import Mathlib

/-!
Verification of the trade-gnome decision core: a shallow embedding of the
indicator library, the live trading-engine decision policy
(supabase/functions/trading-engine/index.ts) and the MA-crossover backtest
simulator (supabase/functions/backtest/index.ts), together with theorems
settling the frozen claims about them.

Modelling conventions
* JavaScript numbers are modelled as rationals (`ℚ`).  Divisions in the
  source that are guarded against a zero denominator are modelled with the
  total division of `ℚ`; the one code path where an unguarded `0/0`
  (IEEE NaN) is reachable — the Sharpe-ratio pipeline of
  `calculateBacktestMetrics` — is modelled with `Option ℚ`, where `none`
  encodes NaN (and the `undefined` seed of `calculateEMA` at period 1,
  which likewise poisons all downstream arithmetic).
* `Math.sqrt` has no exact rational counterpart, so functions that need it
  take an explicit `sqrtFn : ℚ → ℚ` parameter; every theorem below is
  quantified over `sqrtFn`, so no conclusion depends on its values.
* `Array.prototype.slice` with signed, clamped endpoints is modelled by
  `jsSlice`; the JS falsy test `!x` on a nullable number by `jsFalsy`
  (true on `null`/`undefined` and on `0`).
* String `reason` payloads are modelled by the enumeration `Reason`
  (one constructor per distinct template literal in the source).
-/

namespace TradeGnome

/-- JS `Array.prototype.slice(a, b)`: signed indices, clamped to bounds. -/
def jsSlice (l : List ℚ) (a b : Int) : List ℚ :=
  let n : Int := l.length
  let s : Int := if a < 0 then max (n + a) 0 else min a n
  let e : Int := if b < 0 then max (n + b) 0 else min b n
  (l.drop s.toNat).take (e - s).toNat

/-- JS falsiness of a nullable number: `!x` is true for `null` and for `0`
(and for NaN, which cannot occur among the `some` values fed to it here). -/
def jsFalsy : Option ℚ → Bool
  | none => true
  | some q => q = 0

/-- NaN-propagating addition (`none` encodes IEEE NaN). -/
def jsAdd : Option ℚ → Option ℚ → Option ℚ
  | some a, some b => some (a + b)
  | _, _ => none

/-- NaN-propagating subtraction. -/
def jsSub : Option ℚ → Option ℚ → Option ℚ
  | some a, some b => some (a - b)
  | _, _ => none

/-- NaN-propagating multiplication. -/
def jsMul : Option ℚ → Option ℚ → Option ℚ
  | some a, some b => some (a * b)
  | _, _ => none

/-- NaN-propagating division.  A zero denominator yields `none`: in the
embedded code the numerator is then also `0` (JS `0/0 = NaN`), so the
±Infinity cases of JS division are unreachable and not distinguished. -/
def jsDiv : Option ℚ → Option ℚ → Option ℚ
  | some a, some b => if b = 0 then none else some (a / b)
  | _, _ => none

/-- JS `>` on nullable numbers: false if either side is NaN/undefined. -/
def jsGt : Option ℚ → Option ℚ → Bool
  | some a, some b => b < a
  | _, _ => false

/-- JS `<` on nullable numbers: false if either side is NaN/undefined. -/
def jsLt : Option ℚ → Option ℚ → Bool
  | some a, some b => a < b
  | _, _ => false

/-- Computable stand-in square root on `ℚ` (integer square root of the
floor).  Only used to *instantiate* the `sqrtFn` parameter in closed
witness statements; every theorem is quantified over arbitrary `sqrtFn`. -/
def ratSqrt (q : ℚ) : ℚ := (Nat.sqrt (Rat.floor q).toNat : ℚ)

/-! ## Indicator library (trading-engine/index.ts) -/

/-- Source `calculateSMA(prices, period)`: `0` sentinel when the series is shorter
than `period`, else the mean of `prices.slice(-period)`. -/
def calculateSMA (prices : List ℚ) (period : ℕ) : ℚ :=
  if prices.length < period then 0
  else (jsSlice prices (-(period : Int)) (prices.length : Int)).sum / (period : ℚ)

/-- The `gains`/`losses` accumulation loop of `calculateRSI`: for
`i = len - period .. len - 1`, `change = prices[i] - prices[i-1]`;
positive changes accumulate into gains, the rest into losses as `|change|`. -/
def rsiGainsLosses (prices : List ℚ) (period : ℕ) : ℚ × ℚ :=
  (List.range period).foldl
    (fun gl k =>
      let i := prices.length - period + k
      let change := prices.getD i 0 - prices.getD (i - 1) 0
      if 0 < change then (gl.1 + change, gl.2) else (gl.1, gl.2 + |change|))
    (0, 0)

/-- Source `calculateRSI(prices, period)`: `50` sentinel when
`prices.length < period + 1`; `100` when the average loss is exactly zero;
else `100 - 100/(1 + avgGain/avgLoss)`. -/
def calculateRSI (prices : List ℚ) (period : ℕ) : ℚ :=
  if prices.length < period + 1 then 50
  else
    let gl := rsiGainsLosses prices period
    let avgGain := gl.1 / (period : ℚ)
    let avgLoss := gl.2 / (period : ℚ)
    if avgLoss = 0 then 100
    else 100 - 100 / (1 + avgGain / avgLoss)

/-- Source `calculateATR(highs, lows, closes, period)`: `0` sentinel when
`highs.length < period + 1`; else the mean over the last `period` bars of
the true range `max(high - low, |high - prevClose|, |low - prevClose|)`. -/
def calculateATR (highs lows closes : List ℚ) (period : ℕ) : ℚ :=
  if highs.length < period + 1 then 0
  else
    let trs := (List.range (highs.length - 1)).map (fun j =>
      let i := j + 1
      let high := highs.getD i 0
      let low := lows.getD i 0
      let prevClose := closes.getD (i - 1) 0
      max (high - low) (max |high - prevClose| |low - prevClose|))
    (jsSlice trs (-(period : Int)) (trs.length : Int)).sum / (period : ℚ)

/-- Bollinger band triple. -/
structure BBands where
  upper : ℚ
  middle : ℚ
  lower : ℚ
deriving DecidableEq, Repr

/-- Source `calculateBollingerBands(prices, period)`: `{0,0,0}` sentinel when the
series is short; else middle = SMA, half-width = 2·sqrt(population
variance of the window).  `sqrtFn` stands in for `Math.sqrt`. -/
def calculateBollingerBands (sqrtFn : ℚ → ℚ) (prices : List ℚ) (period : ℕ) : BBands :=
  if prices.length < period then ⟨0, 0, 0⟩
  else
    let slice := jsSlice prices (-(period : Int)) (prices.length : Int)
    let middle := slice.sum / (period : ℚ)
    let variance := (slice.map (fun p => (p - middle) * (p - middle))).sum / (period : ℚ)
    let stdDev := sqrtFn variance
    ⟨middle + 2 * stdDev, middle, middle - 2 * stdDev⟩

/-- Source `calculateEMA(prices, period)`: `0` sentinel when the series is shorter
than `period`; else seeded with `prices.slice(-period, -period+1)[0]` and
the recurrence `ema = (price - ema) * (2/(period+1)) + ema` applied over
`prices[len-period+1 .. len-1]`.  The result is `Option ℚ` because the JS
seed is `undefined` when the seeding slice is empty (period 1); `none`
then propagates through the loop exactly as `undefined`/NaN does. -/
def calculateEMA (prices : List ℚ) (period : ℕ) : Option ℚ :=
  if prices.length < period then some 0
  else
    let seed := (jsSlice prices (-(period : Int)) (-(period : Int) + 1)).get? 0
    let rest := prices.drop (prices.length - period + 1)
    rest.foldl (fun e p => e.map (fun ev => (p - ev) * (2 / ((period : ℚ) + 1)) + ev)) seed

/-- Source `calculateMACD(prices)`: `macd = ema12 - ema26`, and the simplified
signal line `signal = macd * 0.9` (flagged in the source as an
approximation).  Returned as (macd, signal). -/
def calculateMACD (prices : List ℚ) : Option ℚ × Option ℚ :=
  let ema12 := calculateEMA prices 12
  let ema26 := calculateEMA prices 26
  let macd := jsSub ema12 ema26
  let sig := jsMul macd (some (9 / 10))
  (macd, sig)

/-- Source `calculateADX(highs, lows, closes, period)`: `0` sentinel when
`highs.length < period + 1`; else add a fixed `25` for each of the last
`period` bars whose `high - low` range is positive, divided by `period`
(the source's deliberately simplified ADX; `closes` is an unused
parameter, kept for signature parity). -/
def calculateADX (highs lows closes : List ℚ) (period : ℕ) : ℚ :=
  if highs.length < period + 1 then 0
  else
    let sumDX := ((List.range period).map (fun k =>
      let i := highs.length - period + k
      if 0 < highs.getD i 0 - lows.getD i 0 then (25 : ℚ) else 0)).sum
    sumDX / (period : ℚ)

/-- Source `detectSupportResistance(prices)`: sort ascending, return the elements
at indices `floor(len * 0.2)` and `floor(len * 0.8)` (the float products
`len * 0.2` / `len * 0.8` floor to the exact rational floors for every
realistic `len`, so the indices are modelled as `2 * len / 10` and
`8 * len / 10` in `ℕ`).  The JS sort is modelled by `insertionSort`,
which produces the same (unique) sorted permutation of the numbers.
Out-of-range access (`len = 0`) returns `none` (JS `undefined`). -/
def detectSupportResistance (prices : List ℚ) : Option ℚ × Option ℚ :=
  let sorted := List.insertionSort (· ≤ ·) prices
  let len := sorted.length
  (sorted.get? (2 * len / 10), sorted.get? (8 * len / 10))

/-- Market regime, from `determineRegime`. -/
inductive Regime
  | bullish
  | bearish
  | range
deriving DecidableEq, Repr

/-- Source `determineRegime(trend, volatility)`: `bullish` if `trend > 60`,
`bearish` if `trend < 40`, else `range` (`volatility` is unused, as in
the source). -/
def determineRegime (trend volatility : ℚ) : Regime :=
  if 60 < trend then .bullish else if trend < 40 then .bearish else .range

/-! ## Backtest simulator (backtest/index.ts) -/

/-- Trade side (`'buy' | 'sell'`). -/
inductive TType
  | buy
  | sell
deriving DecidableEq, Repr

/-- One OHLCV candle.  Field `openP` models `open` (a Lean keyword). -/
structure Candle where
  timestamp : Int
  openP : ℚ
  high : ℚ
  low : ℚ
  close : ℚ
  volume : ℚ
deriving DecidableEq, Repr

/-- One ledger entry (`Trade` interface).  `ttype` models the source field
`type`; `pnl` is the optional PnL field (absent on backtest buys). -/
structure Trade where
  ttype : TType
  price : ℚ
  quantity : ℚ
  total_value : ℚ
  pnl : Option ℚ
  timestamp : Int
deriving DecidableEq, Repr

/-- Source `movingAverage(data, period, index)`: `null` when
`index < period - 1` (the index is signed: the loop calls it at `i - 1`,
which is `-1` on the first bar), else the mean over
`data.slice(index - period + 1, index + 1)` divided by `period`. -/
def movingAverage (data : List ℚ) (period : ℕ) (index : Int) : Option ℚ :=
  if index < (period : Int) - 1 then none
  else some ((jsSlice data (index - (period : Int) + 1) (index + 1)).sum / (period : ℚ))

/-- The loop guard `!shortMA || !longMA || !prevShortMA || !prevLongMA` of
`runMACrossoverBacktest`: the bar at index `i` is skipped when any of the
four moving averages is `null` — or `0`, since `!x` is JS falsiness. -/
def barSkipped (closes : List ℚ) (shortPeriod longPeriod : ℕ) (i : ℕ) : Bool :=
  jsFalsy (movingAverage closes shortPeriod (i : Int)) ||
  jsFalsy (movingAverage closes longPeriod (i : Int)) ||
  jsFalsy (movingAverage closes shortPeriod ((i : Int) - 1)) ||
  jsFalsy (movingAverage closes longPeriod ((i : Int) - 1))

/-- Mutable state of the backtest loop. -/
structure BTState where
  trades : List Trade
  inPosition : Bool
  entryPrice : ℚ
  entryIndex : ℕ
deriving Repr

/-- The stop-loss / take-profit block of the backtest loop body: while in
a position, exit when `priceChange <= -stopLossPercent` or
`priceChange >= takeProfitPercent`. -/
def btExitStep (tradeAmount stopLossPercent takeProfitPercent currentPrice : ℚ)
    (ts : Int) (s : BTState) : BTState :=
  if s.inPosition then
    -- priceChange = ((currentPrice - entryPrice) / entryPrice) * 100, inlined
    if (currentPrice - s.entryPrice) / s.entryPrice * 100 ≤ -stopLossPercent ∨
        takeProfitPercent ≤ (currentPrice - s.entryPrice) / s.entryPrice * 100 then
      let quantity := tradeAmount / s.entryPrice
      let pnl := (currentPrice - s.entryPrice) * quantity
      { s with
        trades := s.trades ++
          [⟨.sell, currentPrice, quantity, quantity * currentPrice, some pnl, ts⟩],
        inPosition := false }
    else s
  else s

/-- The MA-crossover block of the backtest loop body: buy on a bullish
crossover while flat, sell on a bearish crossover while in a position. -/
def btCrossStep (tradeAmount currentPrice : ℚ) (ts : Int) (i : ℕ)
    (shortMA longMA prevShortMA prevLongMA : ℚ) (s : BTState) : BTState :=
  if s.inPosition = false ∧ prevShortMA ≤ prevLongMA ∧ longMA < shortMA then
    let quantity := tradeAmount / currentPrice
    { s with
      inPosition := true, entryPrice := currentPrice, entryIndex := i,
      trades := s.trades ++ [⟨.buy, currentPrice, quantity, tradeAmount, none, ts⟩] }
  else if s.inPosition = true ∧ prevLongMA ≤ prevShortMA ∧ shortMA < longMA then
    let quantity := tradeAmount / s.entryPrice
    let pnl := (currentPrice - s.entryPrice) * quantity
    { s with
      trades := s.trades ++
        [⟨.sell, currentPrice, quantity, quantity * currentPrice, some pnl, ts⟩],
      inPosition := false }
  else s

/-- One iteration of the backtest loop at bar `i`: skip on the falsy
guard, else run the stop-loss/take-profit block and then the crossover
block on the current state. -/
def btStep (candles : List Candle) (shortPeriod longPeriod : ℕ)
    (tradeAmount stopLossPercent takeProfitPercent : ℚ) (s : BTState) (i : ℕ) : BTState :=
  let closes := candles.map Candle.close
  if barSkipped closes shortPeriod longPeriod i then s
  else
    let currentPrice := closes.getD i 0
    let ts := (candles.getD i ⟨0, 0, 0, 0, 0, 0⟩).timestamp
    let shortMA := (movingAverage closes shortPeriod (i : Int)).getD 0
    let longMA := (movingAverage closes longPeriod (i : Int)).getD 0
    let prevShortMA := (movingAverage closes shortPeriod ((i : Int) - 1)).getD 0
    let prevLongMA := (movingAverage closes longPeriod ((i : Int) - 1)).getD 0
    btCrossStep tradeAmount currentPrice ts i shortMA longMA prevShortMA prevLongMA
      (btExitStep tradeAmount stopLossPercent takeProfitPercent currentPrice ts s)

/-- Source `runMACrossoverBacktest`: fold the loop body over all bar indices,
starting flat with an empty ledger, and return the trade ledger. -/
def runMACrossoverBacktest (candles : List Candle) (shortPeriod longPeriod : ℕ)
    (tradeAmount stopLossPercent takeProfitPercent : ℚ) : List Trade :=
  ((List.range candles.length).foldl
    (btStep candles shortPeriod longPeriod tradeAmount stopLossPercent takeProfitPercent)
    ⟨[], false, 0, 0⟩).trades

/-- The pairing loop of `calculateBacktestMetrics`: walk the ledger two at
a time; a (buy, sell) pair contributes its exit PnL (`pnl || 0`), any
other pair is silently dropped.  Returns the completed-trade PnL list. -/
def completedPnls : List Trade → List ℚ
  | a :: b :: rest =>
      if a.ttype = .buy ∧ b.ttype = .sell then (b.pnl.getD 0) :: completedPnls rest
      else completedPnls rest
  | _ => []

/-- The `BacktestMetrics` record.  `sharpe` models the source field `sharpeRatio`,
as `Option ℚ` because its computation can produce NaN (`none`); trade
counts are list lengths, hence `ℕ`. -/
structure BacktestMetrics where
  totalPnl : ℚ
  winRate : ℚ
  avgPnl : ℚ
  maxDrawdown : ℚ
  totalTrades : ℕ
  winningTrades : ℕ
  losingTrades : ℕ
  sharpe : Option ℚ
  maxConsecutiveLosses : ℕ
deriving DecidableEq, Repr

/-- Source `calculateBacktestMetrics(trades, initialBalance)`.  The Sharpe-ratio
pipeline is modelled with NaN-propagating arithmetic because its
divisions by `returns.length` are unguarded; every other metric is
guarded in the source exactly as modelled here. -/
def calculateBacktestMetrics (sqrtFn : ℚ → ℚ) (trades : List Trade)
    (initialBalance : ℚ) : BacktestMetrics :=
  let pnlList := completedPnls trades
  let totalPnl := pnlList.sum
  let winning := pnlList.filter (fun p => 0 < p)
  let losing := pnlList.filter (fun p => p ≤ 0)
  let winRate := if 0 < pnlList.length then (winning.length : ℚ) / (pnlList.length : ℚ) else 0
  let avgPnl := if 0 < pnlList.length then totalPnl / (pnlList.length : ℚ) else 0
  let dd := pnlList.foldl
    (fun pb pnl =>
      let bal := pb.2.2 + pnl
      let peak := if pb.1 < bal then bal else pb.1
      let drawdown := peak - bal
      (peak, if pb.2.1 < drawdown then drawdown else pb.2.1, bal))
    (initialBalance, 0, initialBalance)
  let returns := pnlList.map (fun p => p / initialBalance)
  let avgReturn := jsDiv (some returns.sum) (some (returns.length : ℚ))
  let variance := jsDiv
    (returns.foldl
      (fun acc r => jsAdd acc (jsMul (jsSub (some r) avgReturn) (jsSub (some r) avgReturn)))
      (some 0))
    (some (returns.length : ℚ))
  let stdDev := variance.map sqrtFn
  let sharpe := if stdDev ≠ some 0 then jsDiv avgReturn stdDev else some 0
  let mcl := pnlList.foldl
    (fun mc pnl => if pnl ≤ 0 then (max mc.1 (mc.2 + 1), mc.2 + 1) else (mc.1, 0))
    ((0 : ℕ), (0 : ℕ))
  { totalPnl := totalPnl
    winRate := winRate
    avgPnl := avgPnl
    maxDrawdown := dd.2.1
    totalTrades := pnlList.length
    winningTrades := winning.length
    losingTrades := losing.length
    sharpe := sharpe
    maxConsecutiveLosses := mcl.1 }

/-! ## Live decision policy (trading-engine/index.ts serve handler) -/

/-- Decision action (`'hold' | 'buy' | 'sell'`). -/
inductive Action
  | hold
  | buy
  | sell
deriving DecidableEq, Repr

/-- Audit `reason` strings of the handler, one constructor per template
literal (`empty` is the initial `reason = ''`). -/
inductive Reason
  | empty
  | stopLoss
  | takeProfit
  | bullishSignal
  | bearishSignal
  | rangeMeanReversionBuy
  | rangeMeanReversionExit
  | weakeningMomentum
  | highVolatility
  | dailyLossLimit
deriving DecidableEq, Repr

/-- The `bot_config` row fields consumed by the handler. -/
structure BotConfig where
  short_ma_period : ℕ
  long_ma_period : ℕ
  trade_amount : ℚ
  stop_loss_percent : ℚ
  take_profit_percent : ℚ
  max_daily_loss : ℚ
deriving DecidableEq, Repr

/-- The most recent recorded trade, as selected from the `trades` table
(`trade_type, price, quantity`). -/
structure LastTrade where
  trade_type : TType
  price : ℚ
  quantity : ℚ
deriving DecidableEq, Repr

/-- Embeds `lastTrade?.trade_type === 'buy'`. -/
def isBuyOpt : Option LastTrade → Bool
  | some lt => lt.trade_type = .buy
  | none => false

/-- Caller-supplied inputs of one live evaluation: the fetched candle
series (as parallel close/high/low lists), the bot config, the sentiment
score and the cumulative realized PnL of the current day. -/
structure EngineEnv where
  closes : List ℚ
  highs : List ℚ
  lows : List ℚ
  config : BotConfig
  sentiment : ℚ
  todayPnL : ℚ

/-- The current price `closes[closes.length - 1]` (the handler guarantees nonemptiness). -/
def envPrice (env : EngineEnv) : ℚ := env.closes.getD (env.closes.length - 1) 0

/-- Normalized volatility `(atr / currentPrice) * 100`. -/
def envVolatility (env : EngineEnv) : ℚ :=
  calculateATR env.highs env.lows env.closes 14 / envPrice env * 100

/-- Observable outcome of one evaluation: the decided action, its audit
reason, whether the circuit breaker disabled the bot
(`is_active := false`), and the trade row inserted (if any). -/
structure EngineResult where
  action : Action
  reason : Reason
  deactivated : Bool
  emitted : Option Trade
deriving DecidableEq, Repr

/-- The stop-loss / take-profit block of the handler
(`if (inPosition && lastTrade) ...`): answers `sell` with the matching
reason when the price change against the entry breaches a threshold,
else `hold`. -/
def protectStep (lastTrade : Option LastTrade) (currentPrice : ℚ)
    (cfg : BotConfig) : Action × Reason :=
  match lastTrade with
  | some lt =>
      if isBuyOpt (some lt) then
        -- priceChange = ((currentPrice - entryPrice) / entryPrice) * 100, inlined
        if (currentPrice - lt.price) / lt.price * 100 ≤ -cfg.stop_loss_percent then
          (.sell, .stopLoss)
        else if cfg.take_profit_percent ≤ (currentPrice - lt.price) / lt.price * 100 then
          (.sell, .takeProfit)
        else (.hold, .empty)
      else (.hold, .empty)
  | none => (.hold, .empty)

/-- The regime-dependent strategy block of the handler (run only when no
protective exit fired and volatility is acceptable). -/
def strategyStep (inPosition : Bool) (regime : Regime) (trendStrong : Bool)
    (currentPrice shortMA longMA rsi adx : ℚ) (macd sig : Option ℚ)
    (bb : BBands) : Action × Reason :=
  if regime = .bullish ∧ inPosition = false ∧ trendStrong = true then
    if longMA < shortMA ∧ rsi < 70 ∧ 40 < rsi ∧ jsGt macd sig = true then
      (.buy, .bullishSignal)
    else (.hold, .empty)
  else if regime = .bearish ∧ inPosition = true then
    if shortMA < longMA ∨ rsi < 40 ∨ jsLt macd sig = true then
      (.sell, .bearishSignal)
    else (.hold, .empty)
  else if regime = .range ∧ adx < 20 then
    if inPosition = false ∧ currentPrice ≤ bb.lower ∧ rsi < 30 then
      (.buy, .rangeMeanReversionBuy)
    else if inPosition = true ∧ (bb.upper ≤ currentPrice ∨ 70 < rsi) then
      (.sell, .rangeMeanReversionExit)
    else (.hold, .empty)
  else (.hold, .empty)

/-- The decision chain of the handler: stop-loss/take-profit check, then
the strategy block guarded by `action === 'hold' && volatilityOk`
(followed by the additional weakening-momentum exit for position
holders), with the high-volatility `else if` overwriting the reason
while leaving the action unchanged.  Returns (action, reason). -/
def decideAction (lastTrade : Option LastTrade) (currentPrice : ℚ) (cfg : BotConfig)
    (volatilityOk trendStrong : Bool) (regime : Regime) (shortMA longMA rsi adx : ℚ)
    (macd sig : Option ℚ) (bb : BBands) : Action × Reason :=
  let inPosition := isBuyOpt lastTrade
  let protect := protectStep lastTrade currentPrice cfg
  if protect.1 = .hold ∧ volatilityOk = true then
    let a1 := strategyStep inPosition regime trendStrong currentPrice shortMA longMA
      rsi adx macd sig bb
    if inPosition = true ∧ a1.1 = .hold then
      if shortMA < longMA ∧ rsi < 45 then (.sell, .weakeningMomentum) else a1
    else a1
  else if volatilityOk = false then (protect.1, .highVolatility)
  else protect

/-- Context-aware position sizing of the handler: halve the trade amount
when `volatility > 3`, then take 70 percent when `sentiment < -0.5`. -/
def adjustedAmount (env : EngineEnv) : ℚ :=
  let sized := if 3 < envVolatility env then env.config.trade_amount * (1 / 2)
    else env.config.trade_amount
  if env.sentiment < -(1 / 2) then sized * (7 / 10) else sized

/-- The trade-insertion block of the handler (`if (action !== 'hold')`):
the trade row recorded for the decided action, with
`quantity = adjustedTradeAmount / currentPrice`,
`total_value = adjustedTradeAmount`, and on a sell
`pnl = (currentPrice - entryPrice) * entryQuantity` from the last
recorded trade (`0` on a buy; the live row has no candle timestamp). -/
def emitTrade (action : Action) (currentPrice amount : ℚ)
    (lastTrade : Option LastTrade) : Option Trade :=
  match action with
  | .hold => none
  | .buy => some ⟨.buy, currentPrice, amount / currentPrice, amount, some 0, 0⟩
  | .sell =>
      let tradePnL :=
        match lastTrade with
        | some lt => (currentPrice - lt.price) * lt.quantity
        | none => 0
      some ⟨.sell, currentPrice, amount / currentPrice, amount, some tradePnL, 0⟩

/-- One live evaluation of the serve handler, from the candle fetch
onwards: `none` models the `'Failed to fetch market data'` throw on an
empty candle series; otherwise the handler computes the indicator
snapshot, trips the daily-loss circuit breaker if
`|todayPnL| >= max_daily_loss` (disabling the bot and taking no action),
else runs risk-adjusted sizing and the decision chain, and inserts a
trade row when the action is not `hold` (with
`pnl = (currentPrice - entryPrice) * entryQuantity` on a sell). -/
def evaluateEngine (sqrtFn : ℚ → ℚ) (env : EngineEnv)
    (lastTrade : Option LastTrade) : Option EngineResult :=
  if env.closes.length = 0 then none
  else
    let closes := env.closes
    let cfg := env.config
    let currentPrice := envPrice env
    let shortMA := calculateSMA closes cfg.short_ma_period
    let longMA := calculateSMA closes cfg.long_ma_period
    let rsi := calculateRSI closes 14
    let bb := calculateBollingerBands sqrtFn closes 20
    let md := calculateMACD closes
    let adx := calculateADX env.highs env.lows closes 14
    let volatility := envVolatility env
    let trendStrength := rsi
    let regime := determineRegime trendStrength volatility
    if cfg.max_daily_loss ≤ |env.todayPnL| then
      some { action := .hold, reason := .dailyLossLimit, deactivated := true, emitted := none }
    else
      let adjustedTradeAmount := adjustedAmount env
      let volatilityOk : Bool := volatility < 8
      let trendStrong : Bool := 20 < adx
      let ar := decideAction lastTrade currentPrice cfg volatilityOk trendStrong regime
        shortMA longMA rsi adx md.1 md.2 bb
      some { action := ar.1, reason := ar.2, deactivated := false,
             emitted := emitTrade ar.1 currentPrice adjustedTradeAmount lastTrade }

/-- The `LastTrade` view of a recorded ledger row. -/
def toLastTrade (t : Trade) : LastTrade := ⟨t.ttype, t.price, t.quantity⟩

/-- One live tick against a persisted ledger: the evaluation reads the
most recent recorded trade and its emitted trade (if any) is appended. -/
def liveStep (sqrtFn : ℚ → ℚ) (ledger : List Trade) (env : EngineEnv) : List Trade :=
  match evaluateEngine sqrtFn env ((ledger.getLast?).map toLastTrade) with
  | none => ledger
  | some res =>
      match res.emitted with
      | none => ledger
      | some t => ledger ++ [t]

/-- A sequence of live evaluations threaded through an initially empty
trade ledger. -/
def liveThread (sqrtFn : ℚ → ℚ) (envs : List EngineEnv) : List Trade :=
  envs.foldl (liveStep sqrtFn) []

/-! ## Buy/sell alternation machinery -/

/-- Legality scan step over trade sides: the first component records
whether every trade so far was legal (a buy only while flat, a sell only
while in a position), the second the position after the trade. -/
def altStep : Bool × Bool → TType → Bool × Bool
  | (ok, pos), .buy => (ok && !pos, true)
  | (ok, pos), .sell => (ok && pos, false)

/-- Scan a trade-side sequence from the flat state. -/
def altScan (l : List TType) : Bool × Bool := l.foldl altStep (true, false)

/-- Predicate `Alt pos l`: starting from position state `pos` (`true` = long), the
side sequence `l` strictly alternates — a buy only while flat, a sell
only while long.  `Alt false l` is "alternating starting with a buy". -/
inductive Alt : Bool → List TType → Prop
  | nil (pos : Bool) : Alt pos []
  | buy (rest : List TType) : Alt true rest → Alt false (.buy :: rest)
  | sell (rest : List TType) : Alt false rest → Alt true (.sell :: rest)

/-- Recursive form of the legality check. -/
def altOk : Bool → List TType → Bool
  | _, [] => true
  | pos, .buy :: rest => !pos && altOk true rest
  | pos, .sell :: rest => pos && altOk false rest

/-- Invariant of the backtest loop: the ledger so far is a legal
alternation from flat whose end position is the loop's `inPosition`. -/
def BTInv (s : BTState) : Prop :=
  altScan (s.trades.map Trade.ttype) = (true, s.inPosition)

/-- Concrete evaluation input: one bar at close 97, calm market. -/
def envCalm : EngineEnv := ⟨[97], [97], [97], ⟨2, 3, 10, 2, 4, 100⟩, 0, 0⟩

/-- Concrete evaluation input: one bar, daily PnL already at -105 against
a 100 daily-loss limit. -/
def envLossLimit : EngineEnv := ⟨[1], [1], [1], ⟨2, 3, 10, 2, 4, 100⟩, 0, -105⟩

/-- Concrete evaluation input: twenty bars of close 50 with bar ranges
0..100, so ATR = 100 and volatility = 200 percent. -/
def envVolatile : EngineEnv :=
  ⟨List.replicate 20 50, List.replicate 20 100, List.replicate 20 0,
    ⟨2, 3, 10, 2, 4, 100⟩, 0, 0⟩

unseal Rat.inv Rat.mul Rat.add Rat.sub

/-- The first scan component is the recursive legality check. -/
theorem altScan_fst (l : List TType) (ok pos : Bool) :
    (l.foldl altStep (ok, pos)).1 = (ok && altOk pos l) := by
  induction l generalizing ok pos with
  | nil => simp [altOk]
  | cons t rest ih => cases t <;> simp [altStep, altOk, ih, Bool.and_assoc]

/-- The inductive alternation predicate agrees with the legality check. -/
theorem alt_iff_altOk (l : List TType) (pos : Bool) :
    Alt pos l ↔ altOk pos l = true := by
  induction l generalizing pos with
  | nil => exact ⟨fun _ => rfl, fun _ => Alt.nil pos⟩
  | cons t rest ih =>
      cases t with
      | buy =>
          cases pos with
          | false =>
              simp only [altOk, Bool.not_false, Bool.true_and]
              constructor
              · intro h; cases h with | buy _ h2 => exact (ih true).mp h2
              · intro h; exact Alt.buy rest ((ih true).mpr h)
          | true =>
              simp only [altOk, Bool.not_true, Bool.false_and]
              constructor
              · intro h; cases h
              · intro h; cases h
      | sell =>
          cases pos with
          | true =>
              simp only [altOk, Bool.true_and]
              constructor
              · intro h; cases h with | sell _ h2 => exact (ih false).mp h2
              · intro h; exact Alt.sell rest ((ih false).mpr h)
          | false =>
              simp only [altOk, Bool.false_and]
              constructor
              · intro h; cases h
              · intro h; cases h

/-- The position component of the scan is determined by the last side. -/
theorem altScan_snd (ledger : List Trade) (ok pos : Bool) :
    ((ledger.map Trade.ttype).foldl altStep (ok, pos)).2 =
      (match ledger.getLast? with
       | some t => decide (t.ttype = TType.buy)
       | none => pos) := by
  induction ledger using List.reverseRecOn generalizing ok pos with
  | nil => rfl
  | append_singleton l t _ =>
      rw [List.map_append, List.foldl_append]
      rcases h : (l.map Trade.ttype).foldl altStep (ok, pos) with ⟨ok2, pos2⟩
      cases ht : t.ttype <;> simp [altStep, ht, List.getLast?_concat]

/-- Generic fold invariant. -/
theorem foldl_inv {α σ : Type _} (P : σ → Prop) (f : σ → α → σ) :
    ∀ (l : List α) (s : σ), P s → (∀ s a, P s → P (f s a)) → P (l.foldl f s)
  | [], s, hs, _ => hs
  | a :: l, s, hs, hf => foldl_inv P f l (f s a) (hf s a hs) hf

/-- Scanning one appended side is one scan step. -/
theorem altScan_concat (l : List TType) (t : TType) :
    altScan (l ++ [t]) = altStep (altScan l) t := by
  simp [altScan, List.foldl_append]

theorem btExitStep_inv (ta sl tp cp : ℚ) (ts : Int) (s : BTState) (h : BTInv s) :
    BTInv (btExitStep ta sl tp cp ts s) := by
  unfold BTInv at *
  unfold btExitStep
  split_ifs with h1 h2
  · simp [List.map_append, altScan_concat, h, altStep, h1]
  · exact h
  · exact h

theorem btCrossStep_inv (ta cp : ℚ) (ts : Int) (i : ℕ) (sMA lMA psMA plMA : ℚ)
    (s : BTState) (h : BTInv s) : BTInv (btCrossStep ta cp ts i sMA lMA psMA plMA s) := by
  unfold BTInv at *
  unfold btCrossStep
  split_ifs with h1 h2
  · simp [List.map_append, altScan_concat, h, altStep, h1.1]
  · simp [List.map_append, altScan_concat, h, altStep, h2.1]
  · exact h

theorem btStep_inv (candles : List Candle) (sp lp : ℕ) (ta sl tp : ℚ)
    (s : BTState) (i : ℕ) (h : BTInv s) : BTInv (btStep candles sp lp ta sl tp s i) := by
  cases hbs : barSkipped (candles.map Candle.close) sp lp i with
  | true => simpa [btStep, hbs] using h
  | false =>
      simp only [btStep, hbs]
      simp only [Bool.false_eq_true, if_false]
      exact btCrossStep_inv _ _ _ _ _ _ _ _ _ (btExitStep_inv _ _ _ _ _ _ h)

/-- The backtest trade ledger is a strict buy/sell alternation from flat. -/
theorem runMACrossoverBacktest_alt (candles : List Candle) (sp lp : ℕ) (ta sl tp : ℚ) :
    Alt false ((runMACrossoverBacktest candles sp lp ta sl tp).map Trade.ttype) := by
  have hinv : BTInv ((List.range candles.length).foldl
      (btStep candles sp lp ta sl tp) ⟨[], false, 0, 0⟩) := by
    apply foldl_inv BTInv
    · rfl
    · intro s a hs; exact btStep_inv candles sp lp ta sl tp s a hs
  rw [alt_iff_altOk]
  have h1 := congrArg Prod.fst hinv
  simpa [runMACrossoverBacktest, altScan, altScan_fst] using h1

/-- A protective exit can only answer `sell`, and only while the last
recorded trade is a buy. -/
theorem protectStep_sell (lastTrade : Option LastTrade) (cp : ℚ) (cfg : BotConfig)
    (h : (protectStep lastTrade cp cfg).1 ≠ .hold) :
    (protectStep lastTrade cp cfg).1 = .sell ∧ isBuyOpt lastTrade = true := by
  cases lastTrade with
  | none => simp [protectStep] at h
  | some lt =>
      simp only [protectStep] at h ⊢
      split_ifs at h ⊢ <;> simp_all

/-- A strategy sell is guarded by `inPosition`, a strategy buy by
`!inPosition`. -/
theorem strategyStep_pos (inPos : Bool) (rg : Regime) (tS : Bool)
    (cp sMA lMA rsi adx : ℚ) (macd sig : Option ℚ) (bb : BBands) :
    ((strategyStep inPos rg tS cp sMA lMA rsi adx macd sig bb).1 = .sell → inPos = true) ∧
    ((strategyStep inPos rg tS cp sMA lMA rsi adx macd sig bb).1 = .buy → inPos = false) := by
  unfold strategyStep
  split_ifs <;> simp_all

/-- An action known to be `sell` is not `hold`. -/
theorem ne_hold_of_eq_sell {x : Action} (h : x = .sell) : x ≠ .hold := by
  rw [h]; exact fun hh => by cases hh

/-- An action known to be `buy` is not `hold`. -/
theorem ne_hold_of_eq_buy {x : Action} (h : x = .buy) : x ≠ .hold := by
  rw [h]; exact fun hh => by cases hh

/-- The decision chain can only answer `sell` while the last recorded
trade is a buy: every sell-producing branch is guarded by `inPosition`. -/
theorem decideAction_sell_isBuy (lastTrade : Option LastTrade) (cp : ℚ) (cfg : BotConfig)
    (vOk tS : Bool) (rg : Regime) (sMA lMA rsi adx : ℚ) (macd sig : Option ℚ) (bb : BBands)
    (h : (decideAction lastTrade cp cfg vOk tS rg sMA lMA rsi adx macd sig bb).1 = .sell) :
    isBuyOpt lastTrade = true := by
  simp only [decideAction] at h
  split_ifs at h with c1 c2 c3 c4 <;>
    first
      | exact c2.1
      | exact (strategyStep_pos (isBuyOpt lastTrade) rg tS cp sMA lMA rsi adx macd sig bb).1 h
      | exact (protectStep_sell lastTrade cp cfg (ne_hold_of_eq_sell h)).2

/-- The decision chain can only answer `buy` while the last recorded
trade is not a buy: every buy-producing branch is guarded by
`!inPosition`. -/
theorem decideAction_buy_notBuy (lastTrade : Option LastTrade) (cp : ℚ) (cfg : BotConfig)
    (vOk tS : Bool) (rg : Regime) (sMA lMA rsi adx : ℚ) (macd sig : Option ℚ) (bb : BBands)
    (h : (decideAction lastTrade cp cfg vOk tS rg sMA lMA rsi adx macd sig bb).1 = .buy) :
    isBuyOpt lastTrade = false := by
  simp only [decideAction] at h
  split_ifs at h with c1 c2 c3 c4 <;>
    first
      | exact absurd h (by decide)
      | exact (strategyStep_pos (isBuyOpt lastTrade) rg tS cp sMA lMA rsi adx macd sig bb).2 h
      | · have h2 : (protectStep lastTrade cp cfg).1 = Action.buy := h
          rw [(protectStep_sell lastTrade cp cfg (ne_hold_of_eq_buy h2)).1] at h2
          exact absurd h2 (by decide)

/-- An emitted trade's side determines the action that produced it. -/
theorem emitTrade_ttype (a : Action) (cp am : ℚ) (lt : Option LastTrade) (t : Trade)
    (h : emitTrade a cp am lt = some t) :
    (t.ttype = .sell → a = .sell) ∧ (t.ttype = .buy → a = .buy) := by
  cases a with
  | hold => simp [emitTrade] at h
  | buy =>
      simp only [emitTrade, Option.some_inj] at h
      subst h
      exact ⟨fun hh => (nomatch hh), fun _ => rfl⟩
  | sell =>
      simp only [emitTrade, Option.some_inj] at h
      subst h
      exact ⟨fun _ => rfl, fun hh => (nomatch hh)⟩

/-- Per-evaluation position guards: a successful evaluation answers (or
records) a sell only while the last recorded trade is a buy, and a buy
only while it is not. -/
theorem evaluateEngine_guards (sqrtFn : ℚ → ℚ) (env : EngineEnv)
    (lastTrade : Option LastTrade) (res : EngineResult)
    (h : evaluateEngine sqrtFn env lastTrade = some res) :
    (res.action = .sell → isBuyOpt lastTrade = true) ∧
    (res.action = .buy → isBuyOpt lastTrade = false) ∧
    (∀ t, res.emitted = some t →
      (t.ttype = .sell → isBuyOpt lastTrade = true) ∧
      (t.ttype = .buy → isBuyOpt lastTrade = false)) := by
  simp only [evaluateEngine] at h
  split_ifs at h
  all_goals
    first
      | exact Option.noConfusion h
      | (injection h with h2
         subst h2
         first
           | (simp; done)
           | (refine ⟨fun ha => decideAction_sell_isBuy _ _ _ _ _ _ _ _ _ _ _ _ _ ha,
                      fun ha => decideAction_buy_notBuy _ _ _ _ _ _ _ _ _ _ _ _ _ ha,
                      fun t ht => ?_⟩
              have he := emitTrade_ttype _ _ _ _ _ ht
              exact ⟨fun htt => decideAction_sell_isBuy _ _ _ _ _ _ _ _ _ _ _ _ _ (he.1 htt),
                     fun htt => decideAction_buy_notBuy _ _ _ _ _ _ _ _ _ _ _ _ _ (he.2 htt)⟩))

/-- The position component of the ledger scan is the `inPosition` flag
that the next evaluation reads from the ledger. -/
theorem altScan_snd_isBuy (ledger : List Trade) :
    (altScan (ledger.map Trade.ttype)).2 = isBuyOpt ((ledger.getLast?).map toLastTrade) := by
  rw [altScan, altScan_snd]
  cases ledger.getLast? <;> simp [isBuyOpt, toLastTrade]

/-- One live tick preserves legality of the threaded ledger. -/
theorem liveStep_alt (sqrtFn : ℚ → ℚ) (ledger : List Trade) (env : EngineEnv)
    (h : altOk false (ledger.map Trade.ttype) = true) :
    altOk false ((liveStep sqrtFn ledger env).map Trade.ttype) = true := by
  cases hE : evaluateEngine sqrtFn env ((ledger.getLast?).map toLastTrade) with
  | none => simpa [liveStep, hE] using h
  | some res =>
      cases hT : res.emitted with
      | none => simpa [liveStep, hE, hT] using h
      | some t =>
          have hg := (evaluateEngine_guards sqrtFn env _ res hE).2.2 t hT
          have hfst : (altScan (ledger.map Trade.ttype)).1 = true := by
            rw [altScan, altScan_fst]; simpa using h
          have hsnd : (altScan (ledger.map Trade.ttype)).2
              = isBuyOpt ((ledger.getLast?).map toLastTrade) := altScan_snd_isBuy ledger
          have hgoal : (altScan ((ledger ++ [t]).map Trade.ttype)).1 = true := by
            rw [List.map_append]
            simp only [List.map_cons, List.map_nil]
            rw [altScan_concat]
            rcases hs : altScan (ledger.map Trade.ttype) with ⟨p1, p2⟩
            rw [hs] at hfst hsnd
            cases htt : t.ttype with
            | sell =>
                have hbuy := hg.1 htt
                simp only at hfst hsnd
                simp [altStep, hfst, hsnd, hbuy]
            | buy =>
                have hnot := hg.2 htt
                simp only at hfst hsnd
                simp [altStep, hfst, hsnd, hnot]
          rw [altScan, altScan_fst] at hgoal
          simpa [liveStep, hE, hT, List.map_append] using hgoal

/-- The ledger produced by any threaded sequence of live evaluations is
a strict buy/sell alternation from flat. -/
theorem liveThread_alt (sqrtFn : ℚ → ℚ) (envs : List EngineEnv) :
    Alt false ((liveThread sqrtFn envs).map Trade.ttype) := by
  rw [alt_iff_altOk]
  unfold liveThread
  have hbase : altOk false (([] : List Trade).map Trade.ttype) = true := rfl
  exact foldl_inv (fun ledger => altOk false (ledger.map Trade.ttype) = true)
    (liveStep sqrtFn) envs [] hbase (fun s a hs => liveStep_alt sqrtFn s a hs)

/-- C1: with zero completed trades every guarded metric is 0, but the
Sharpe pipeline divides by the empty return count (`0/0`, IEEE NaN), so
`sharpeRatio` is NaN rather than the 0 the spec requires — while no
exception is raised.  This theorem evaluates the embedded
`calculateBacktestMetrics` on any ledger that pairs into zero completed
trades. -/
theorem C1_zero_trades_metrics (sqrtFn : ℚ → ℚ) (trades : List Trade) (ib : ℚ)
    (h : completedPnls trades = []) :
    calculateBacktestMetrics sqrtFn trades ib =
      { totalPnl := 0, winRate := 0, avgPnl := 0, maxDrawdown := 0, totalTrades := 0,
        winningTrades := 0, losingTrades := 0, sharpe := none, maxConsecutiveLosses := 0 } := by
  simp [calculateBacktestMetrics, h, jsDiv]

/-- Witness for C1 at the empty ledger. -/
theorem C1_zero_trades_metrics_witness :
    calculateBacktestMetrics ratSqrt [] 1000 =
      { totalPnl := 0, winRate := 0, avgPnl := 0, maxDrawdown := 0, totalTrades := 0,
        winningTrades := 0, losingTrades := 0, sharpe := none, maxConsecutiveLosses := 0 } :=
  C1_zero_trades_metrics ratSqrt [] 1000 rfl

/-- C3: whenever the caller-supplied daily realized PnL has magnitude at
least `max_daily_loss`, the evaluation (on a nonempty candle series)
returns `hold`, flags the bot-disabling side effect, and records no
trade, regardless of every indicator value and the current position. -/
theorem C3_circuit_breaker (sqrtFn : ℚ → ℚ) (env : EngineEnv) (lastTrade : Option LastTrade)
    (h0 : env.closes.length ≠ 0)
    (hloss : env.config.max_daily_loss ≤ |env.todayPnL|) :
    evaluateEngine sqrtFn env lastTrade =
      some { action := .hold, reason := .dailyLossLimit, deactivated := true,
             emitted := none } := by
  simp only [evaluateEngine]
  rw [if_neg h0, if_pos hloss]

/-- Witness for C3: `todayRealizedPnl = -105`, `maxDailyLoss = 100`. -/
theorem C3_circuit_breaker_witness :
    evaluateEngine ratSqrt envLossLimit none =
      some { action := .hold, reason := .dailyLossLimit, deactivated := true,
             emitted := none } :=
  C3_circuit_breaker ratSqrt envLossLimit none (by decide) (by decide)

/-- The test `jsFalsy` holds exactly on `null` and `0`. -/
theorem jsFalsy_iff (x : Option ℚ) : jsFalsy x = true ↔ x = none ∨ x = some 0 := by
  cases x with
  | none => simp [jsFalsy]
  | some q => simp [jsFalsy]

/-- C6 (amended): a bar is skipped iff one of the four moving averages is
`null` — which happens exactly when the lookback is insufficient
(`index < period - 1`) — **or equals 0**, since the guard `!shortMA || …`
tests JS falsiness, not definedness. -/
theorem C6_skip_guard (closes : List ℚ) (sp lp : ℕ) (i : ℕ) :
    (barSkipped closes sp lp i = true ↔
      (movingAverage closes sp (i : Int) = none ∨ movingAverage closes sp (i : Int) = some 0 ∨
       movingAverage closes lp (i : Int) = none ∨ movingAverage closes lp (i : Int) = some 0 ∨
       movingAverage closes sp ((i : Int) - 1) = none ∨
       movingAverage closes sp ((i : Int) - 1) = some 0 ∨
       movingAverage closes lp ((i : Int) - 1) = none ∨
       movingAverage closes lp ((i : Int) - 1) = some 0)) ∧
    (∀ (p : ℕ) (idx : Int), movingAverage closes p idx = none ↔ idx < (p : Int) - 1) := by
  constructor
  · simp only [barSkipped, Bool.or_eq_true, jsFalsy_iff]
    tauto
  · intro p idx
    unfold movingAverage
    split_ifs with hx
    · simp [hx]
    · simp [hx]

/-- Counterexample for C6 as frozen: at closes `[1, 0]` with periods 1
and 1, every moving average at bar 1 is defined, yet the bar is skipped
(the current short/long MA equals 0, which is falsy). -/
theorem C6_counterexample :
    barSkipped [1, 0] 1 1 1 = true ∧
    movingAverage [1, 0] 1 (1 : Int) ≠ none ∧
    movingAverage [1, 0] 1 ((1 : Int) - 1) ≠ none := by
  decide

/-- The EMA recurrence fold preserves definedness. -/
theorem foldl_map_isSome (l : List ℚ) (f : ℚ → ℚ → ℚ) (x : ℚ) :
    ∃ q, l.foldl (fun e p => e.map (f p)) (some x) = some q := by
  induction l generalizing x with
  | nil => exact ⟨x, rfl⟩
  | cons p rest ih => simpa using ih (f p x)

/-- The embedded `calculateEMA` is defined (never the `undefined` seed) for every
period other than 1. -/
theorem calculateEMA_isSome (prices : List ℚ) (period : ℕ) (hp : 2 ≤ period) :
    ∃ q, calculateEMA prices period = some q := by
  unfold calculateEMA
  split_ifs with hlen
  · exact ⟨0, rfl⟩
  · push_neg at hlen
    rcases hd : (jsSlice prices (-(period : Int)) (-(period : Int) + 1)) with _ | ⟨q0, rest0⟩
    · exfalso
      have hone : (jsSlice prices (-(period : Int)) (-(period : Int) + 1)).length = 1 := by
        have h1 : (-(period : Int) < 0) := by omega
        have h2 : (-(period : Int) + 1 < 0) := by omega
        simp only [jsSlice]
        rw [if_pos h1, if_pos h2]
        simp only [List.length_take, List.length_drop]
        omega
      rw [hd] at hone
      simp at hone
    · simp only [List.get?_cons_zero]
      exact foldl_map_isSome _ _ q0

/-- C8: the MACD pair is always defined, the signal line is exactly
`0.9 × macd`, and therefore the policy's comparison `macd > signal`
(`jsGt`, as used in the bullish gate) holds iff `macd > 0`, and
`macd < signal` (`jsLt`, bearish gate) iff `macd < 0`. -/
theorem C8_macd_signal (prices : List ℚ) :
    ∃ m : ℚ, calculateMACD prices = (some m, some (m * (9 / 10))) ∧
      (jsGt (calculateMACD prices).1 (calculateMACD prices).2 = true ↔ 0 < m) ∧
      (jsLt (calculateMACD prices).1 (calculateMACD prices).2 = true ↔ m < 0) := by
  obtain ⟨a, ha⟩ := calculateEMA_isSome prices 12 (by omega)
  obtain ⟨b, hb⟩ := calculateEMA_isSome prices 26 (by omega)
  refine ⟨a - b, ?_, ?_, ?_⟩
  · simp [calculateMACD, ha, hb, jsSub, jsMul]
  · simp only [calculateMACD, ha, hb, jsSub, jsMul, jsGt]
    constructor
    · intro h
      have h2 : (a - b) * (9 / 10) < a - b := of_decide_eq_true h
      nlinarith
    · intro h
      apply decide_eq_true
      nlinarith
  · simp only [calculateMACD, ha, hb, jsSub, jsMul, jsLt]
    constructor
    · intro h
      have h2 : a - b < (a - b) * (9 / 10) := of_decide_eq_true h
      nlinarith
    · intro h
      apply decide_eq_true
      nlinarith

/-- Gains and losses accumulated by the RSI loop are nonnegative. -/
theorem rsiGainsLosses_nonneg (prices : List ℚ) (period : ℕ) :
    0 ≤ (rsiGainsLosses prices period).1 ∧ 0 ≤ (rsiGainsLosses prices period).2 := by
  unfold rsiGainsLosses
  refine foldl_inv (fun gl : ℚ × ℚ => 0 ≤ gl.1 ∧ 0 ≤ gl.2) _ (List.range period) (0, 0)
    ⟨le_refl 0, le_refl 0⟩ ?_
  intro gl k hgl
  dsimp only
  split_ifs with hc
  · refine ⟨?_, hgl.2⟩
    have hgl1 := hgl.1
    dsimp only
    linarith
  · refine ⟨hgl.1, ?_⟩
    have habs := abs_nonneg (prices.getD (prices.length - period + k) 0 -
      prices.getD (prices.length - period + k - 1) 0)
    have hgl2 := hgl.2
    dsimp only
    linarith

/-- C5: RSI is bounded to [0, 100]; it is the neutral 50 when the series
is too short, 100 when the accumulated loss is exactly zero, and
`100 - 100/(1 + gains/losses)` otherwise (for any meaningful period,
i.e. `period ≥ 1`; the sole call site uses the default 14). -/
theorem C5_rsi_bounds (prices : List ℚ) (period : ℕ) (hp : 1 ≤ period) :
    (0 ≤ calculateRSI prices period ∧ calculateRSI prices period ≤ 100) ∧
    (prices.length < period + 1 → calculateRSI prices period = 50) ∧
    (period + 1 ≤ prices.length →
      ((rsiGainsLosses prices period).2 = 0 → calculateRSI prices period = 100) ∧
      ((rsiGainsLosses prices period).2 ≠ 0 →
        calculateRSI prices period =
          100 - 100 / (1 + (rsiGainsLosses prices period).1 /
            (rsiGainsLosses prices period).2))) := by
  have hq : (0 : ℚ) < (period : ℚ) := by exact_mod_cast hp
  obtain ⟨hg, hl⟩ := rsiGainsLosses_nonneg prices period
  unfold calculateRSI
  split_ifs with hlen
  · exact ⟨⟨by norm_num, by norm_num⟩, fun _ => rfl, fun hc => absurd hc (by omega)⟩
  dsimp only
  split_ifs with hzero
  · rw [div_eq_zero_iff] at hzero
    rcases hzero with hzero | hzero
    · refine ⟨⟨by norm_num, le_refl _⟩, fun hc => absurd hc (by omega), fun _ => ?_⟩
      exact ⟨fun _ => rfl, fun hne => absurd hzero hne⟩
    · exact absurd hzero (ne_of_gt hq)
  · have hlne : (rsiGainsLosses prices period).2 ≠ 0 := by
      intro hc
      rw [div_eq_zero_iff] at hzero
      push_neg at hzero
      exact hzero.1 hc
    have hlpos : 0 < (rsiGainsLosses prices period).2 := lt_of_le_of_ne hl (Ne.symm hlne)
    have hrs : (rsiGainsLosses prices period).1 / (period : ℚ) /
        ((rsiGainsLosses prices period).2 / (period : ℚ)) =
        (rsiGainsLosses prices period).1 / (rsiGainsLosses prices period).2 := by
      field_simp
    have hrsnn : 0 ≤ (rsiGainsLosses prices period).1 / (rsiGainsLosses prices period).2 :=
      div_nonneg hg (le_of_lt hlpos)
    have hd : (0 : ℚ) < 1 + (rsiGainsLosses prices period).1 /
        (rsiGainsLosses prices period).2 := by linarith
    refine ⟨⟨?_, ?_⟩, fun hc => absurd hc (by omega), fun _ => ?_⟩
    · rw [hrs, sub_nonneg, div_le_iff₀ hd]
      nlinarith
    · rw [hrs]
      have hpos100 : 0 < 100 / (1 + (rsiGainsLosses prices period).1 /
          (rsiGainsLosses prices period).2) := by positivity
      linarith
    · exact ⟨fun hc => absurd hc hlne, fun _ => by rw [hrs]⟩

/-- Witness for C5 at `prices = [1, 2, 1]`, `period = 1`. -/
theorem C5_rsi_bounds_witness :
    (0 ≤ calculateRSI [1, 2, 1] 1 ∧ calculateRSI [1, 2, 1] 1 ≤ 100) ∧
    (List.length [(1 : ℚ), 2, 1] < 1 + 1 → calculateRSI [1, 2, 1] 1 = 50) ∧
    (1 + 1 ≤ List.length [(1 : ℚ), 2, 1] →
      ((rsiGainsLosses [1, 2, 1] 1).2 = 0 → calculateRSI [1, 2, 1] 1 = 100) ∧
      ((rsiGainsLosses [1, 2, 1] 1).2 ≠ 0 →
        calculateRSI [1, 2, 1] 1 =
          100 - 100 / (1 + (rsiGainsLosses [1, 2, 1] 1).1 /
            (rsiGainsLosses [1, 2, 1] 1).2))) :=
  C5_rsi_bounds [1, 2, 1] 1 (by omega)

/-- C9: at the most recent bar the backtest's `movingAverage` and the
live engine's `calculateSMA` compute the same mean of the last `period`
values. -/
theorem C9_sma_agreement (data : List ℚ) (period : ℕ) (hp : 1 ≤ period)
    (hl : period ≤ data.length) :
    movingAverage data period ((data.length : Int) - 1) = some (calculateSMA data period) := by
  have e1 : jsSlice data ((data.length : Int) - 1 - (period : Int) + 1)
      ((data.length : Int) - 1 + 1) = (data.drop (data.length - period)).take period := by
    simp only [jsSlice]
    rw [if_neg (by omega), if_neg (by omega)]
    have hs : (min ((data.length : Int) - 1 - (period : Int) + 1) (data.length : Int)).toNat
        = data.length - period := by omega
    have he : ((min ((data.length : Int) - 1 + 1) (data.length : Int)) -
        (min ((data.length : Int) - 1 - (period : Int) + 1) (data.length : Int))).toNat
        = period := by omega
    rw [hs, he]
  have e2 : jsSlice data (-(period : Int)) (data.length : Int)
      = (data.drop (data.length - period)).take period := by
    simp only [jsSlice]
    rw [if_pos (show -(period : Int) < 0 by omega),
      if_neg (show ¬ ((data.length : Int) < 0) by omega)]
    have hs : (max ((data.length : Int) + -(period : Int)) 0).toNat
        = data.length - period := by omega
    have he : ((min (data.length : Int) (data.length : Int)) -
        (max ((data.length : Int) + -(period : Int)) 0)).toNat = period := by omega
    rw [hs, he]
  unfold movingAverage calculateSMA
  rw [if_neg (by omega : ¬ ((data.length : Int) - 1 < (period : Int) - 1)),
    if_neg (by omega : ¬ (data.length < period)), e1, e2]

/-- Witness for C9 at `data = [1, 2, 3]`, `period = 2`. -/
theorem C9_sma_agreement_witness :
    movingAverage [1, 2, 3] 2 ((List.length [(1 : ℚ), 2, 3] : Int) - 1)
      = some (calculateSMA [1, 2, 3] 2) :=
  C9_sma_agreement [1, 2, 3] 2 (by omega) (by decide)

/-- C10: for a nonempty series, support and resistance are elements of
the input taken at the 20th/80th percentile indices of the ascending
sort, and support ≤ resistance. -/
theorem C10_support_resistance (prices : List ℚ) (h : prices ≠ []) :
    ∃ s r, detectSupportResistance prices = (some s, some r) ∧
      s ∈ prices ∧ r ∈ prices ∧ s ≤ r := by
  have hperm := List.perm_insertionSort (· ≤ ·) prices
  have hsort := List.sorted_insertionSort (· ≤ ·) prices
  have hn : 0 < (List.insertionSort (· ≤ ·) prices).length := by
    rw [hperm.length_eq]
    exact List.length_pos.mpr h
  have hi2 : 8 * (List.insertionSort (· ≤ ·) prices).length / 10
      < (List.insertionSort (· ≤ ·) prices).length :=
    Nat.div_lt_of_lt_mul (by omega)
  have hi1 : 2 * (List.insertionSort (· ≤ ·) prices).length / 10
      ≤ 8 * (List.insertionSort (· ≤ ·) prices).length / 10 :=
    Nat.div_le_div_right (by omega)
  have hi1lt := lt_of_le_of_lt hi1 hi2
  refine ⟨(List.insertionSort (· ≤ ·) prices).get
      ⟨2 * (List.insertionSort (· ≤ ·) prices).length / 10, hi1lt⟩,
    (List.insertionSort (· ≤ ·) prices).get
      ⟨8 * (List.insertionSort (· ≤ ·) prices).length / 10, hi2⟩, ?_, ?_, ?_, ?_⟩
  · simp only [detectSupportResistance]
    rw [List.get?_eq_get hi1lt, List.get?_eq_get hi2]
  · exact hperm.subset (List.get_mem _ _ _)
  · exact hperm.subset (List.get_mem _ _ _)
  · exact List.Sorted.rel_get_of_le hsort (Fin.mk_le_mk.mpr hi1)

/-- Witness for C10 at `prices = [3, 1, 2]`. -/
theorem C10_support_resistance_witness :
    ∃ s r, detectSupportResistance [3, 1, 2] = (some s, some r) ∧
      s ∈ [(3 : ℚ), 1, 2] ∧ r ∈ [(3 : ℚ), 1, 2] ∧ s ≤ r :=
  C10_support_resistance [3, 1, 2] (by simp)

/-- The EMA recurrence is stationary on a constant series. -/
theorem ema_fold_const (k : ℕ) (v m : ℚ) :
    (List.replicate k v).foldl
      (fun e p => e.map (fun ev => (p - ev) * m + ev)) (some v) = some v := by
  induction k with
  | zero => rfl
  | succ k ih =>
      rw [List.replicate_succ, List.foldl_cons]
      have hstep : Option.map (fun ev => (v - ev) * m + ev) (some v) = some v := by simp
      rw [hstep]
      exact ih

/-- The EMA recurrence stays undefined from an undefined seed. -/
theorem foldl_map_none (l : List ℚ) (f : ℚ → ℚ → ℚ) :
    l.foldl (fun e p => e.map (f p)) none = none := by
  induction l with
  | nil => rfl
  | cons p rest ih => simpa using ih

/-- C7 (amended): over a constant series of value `v` of sufficient
length, `calculateSMA` returns `v` for every period ≥ 1 and
`calculateEMA` returns `v` for every period ≥ 2 — but for period 1 the
seeding slice `prices.slice(-1, 0)` is empty, so `calculateEMA` returns
the undefined value (JS `undefined`), not `v`. -/
theorem C7_const_series (period n : ℕ) (v : ℚ) (hp : 1 ≤ period) (hn : period ≤ n) :
    calculateSMA (List.replicate n v) period = v ∧
    (2 ≤ period → calculateEMA (List.replicate n v) period = some v) ∧
    (period = 1 → calculateEMA (List.replicate n v) period = none) := by
  have hqp : ((period : ℚ)) ≠ 0 := Nat.cast_ne_zero.mpr (by omega)
  refine ⟨?_, ?_, ?_⟩
  · unfold calculateSMA
    simp only [List.length_replicate]
    rw [if_neg (by omega)]
    have hslice : jsSlice (List.replicate n v) (-(period : Int)) (n : Int)
        = List.replicate period v := by
      simp only [jsSlice, List.length_replicate]
      rw [if_pos (show -(period : Int) < 0 by omega),
        if_neg (show ¬ ((n : Int) < 0) by omega)]
      rw [List.drop_replicate, List.take_replicate]
      congr 1
      omega
    rw [hslice, List.sum_replicate, nsmul_eq_mul, mul_comm, mul_div_assoc,
      div_self hqp, mul_one]
  · intro h2
    unfold calculateEMA
    simp only [List.length_replicate]
    rw [if_neg (by omega)]
    have hseed : jsSlice (List.replicate n v) (-(period : Int)) (-(period : Int) + 1)
        = List.replicate 1 v := by
      simp only [jsSlice, List.length_replicate]
      rw [if_pos (show -(period : Int) < 0 by omega),
        if_pos (show -(period : Int) + 1 < 0 by omega)]
      rw [List.drop_replicate, List.take_replicate]
      congr 1
      omega
    have hrest : (List.replicate n v).drop (n - period + 1)
        = List.replicate (period - 1) v := by
      rw [List.drop_replicate]
      congr 1
      omega
    rw [hseed, hrest]
    simpa using ema_fold_const (period - 1) v (2 / ((period : ℚ) + 1))
  · intro h1
    subst h1
    unfold calculateEMA
    simp only [List.length_replicate]
    rw [if_neg (by omega)]
    have hseed : jsSlice (List.replicate n v) (-((1 : ℕ) : Int)) (-((1 : ℕ) : Int) + 1)
        = [] := by
      simp only [jsSlice, List.length_replicate]
      rw [if_pos (show -((1 : ℕ) : Int) < 0 by omega),
        if_neg (show ¬ (-((1 : ℕ) : Int) + 1 < 0) by omega)]
      have he : ((min (-((1 : ℕ) : Int) + 1) (n : Int)) -
          (max ((n : Int) + -((1 : ℕ) : Int)) 0)).toNat = 0 := by omega
      rw [he]
      exact List.take_zero _
    rw [hseed]
    simpa using foldl_map_none ((List.replicate n v).drop (n - 1 + 1)) _

/-- Counterexample for C7 as frozen: on the constant series `[5]` with
period 1, the SMA is 5 but the EMA is the undefined value, not 5. -/
theorem C7_counterexample :
    ¬ (calculateSMA [5] 1 = 5 ∧ calculateEMA [5] 1 = some 5) := by
  decide

/-- Witness for C7 at `n = 2`, `period = 2`, `v = 7`. -/
theorem C7_const_series_witness :
    calculateSMA (List.replicate 2 7) 2 = 7 ∧
    (2 ≤ 2 → calculateEMA (List.replicate 2 7) 2 = some 7) ∧
    (2 = 1 → calculateEMA (List.replicate 2 7) 2 = none) :=
  C7_const_series 2 2 7 (by omega) (by omega)

/-- C2: (i) the backtest trade ledger strictly alternates buy and sell
starting with a buy (a sell only while in a position opened by a prior
buy, a buy only while flat — the predicate `Alt false`); (ii) one live
evaluation emits a Sell action only when the most recent recorded trade
is a buy, and a Buy only when it is not; (iii) consequently any threaded
sequence of live evaluations produces an alternating ledger, so a Sell
never immediately follows another Sell without an intervening Buy, and
vice versa. -/
theorem C2_alternation :
    (∀ (candles : List Candle) (sp lp : ℕ) (ta sl tp : ℚ),
      Alt false ((runMACrossoverBacktest candles sp lp ta sl tp).map Trade.ttype)) ∧
    (∀ (sqrtFn : ℚ → ℚ) (env : EngineEnv) (lastTrade : Option LastTrade) (res : EngineResult),
      evaluateEngine sqrtFn env lastTrade = some res →
        (res.action = Action.sell → ∃ lt, lastTrade = some lt ∧ lt.trade_type = TType.buy) ∧
        (res.action = Action.buy → isBuyOpt lastTrade = false)) ∧
    (∀ (sqrtFn : ℚ → ℚ) (envs : List EngineEnv),
      Alt false ((liveThread sqrtFn envs).map Trade.ttype)) := by
  refine ⟨runMACrossoverBacktest_alt, ?_, liveThread_alt⟩
  intro sqrtFn env lastTrade res h
  have hg := evaluateEngine_guards sqrtFn env lastTrade res h
  refine ⟨?_, hg.2.1⟩
  intro ha
  have hb := hg.1 ha
  cases lastTrade with
  | none => simp [isBuyOpt] at hb
  | some lt =>
      refine ⟨lt, rfl, ?_⟩
      simpa [isBuyOpt] using hb

/-- Witness for C2: a concrete evaluation that sells (stop loss), whose
most recent recorded trade is indeed a buy. -/
theorem C2_alternation_witness :
    ∃ lt, (some (⟨TType.buy, 100, 3⟩ : LastTrade)) = some lt ∧ lt.trade_type = TType.buy :=
  (C2_alternation.2.1 ratSqrt envCalm (some ⟨TType.buy, 100, 3⟩)
      ⟨Action.sell, Reason.stopLoss, false,
        some ⟨TType.sell, 97, 10 / 97, 10, some (-9), 0⟩⟩
      (by decide)).1 rfl

/-- C4 (amended): while Long with the stop-loss threshold breached
(`(close − entry)/entry × 100 ≤ −stopLossPercent`), the evaluation
always emits Sell with `pnl = (close − entry) × entryQuantity`,
overriding every strategy signal regardless of regime and crossover
state; the recorded reason is "stop loss" when volatility < 8, but at
volatility ≥ 8 the handler's `else if (!volatilityOk)` branch overwrites
the reason with the high-volatility message (the Sell and its PnL are
unchanged). -/
theorem C4_stop_loss_exit (sqrtFn : ℚ → ℚ) (env : EngineEnv) (lt : LastTrade)
    (h0 : env.closes.length ≠ 0)
    (hcb : |env.todayPnL| < env.config.max_daily_loss)
    (hbuy : lt.trade_type = .buy)
    (hpos : 0 < lt.price)
    (hsl : (envPrice env - lt.price) / lt.price * 100 ≤ -env.config.stop_loss_percent) :
    evaluateEngine sqrtFn env (some lt) =
      some ⟨Action.sell,
        (if envVolatility env < 8 then Reason.stopLoss else Reason.highVolatility),
        false,
        some ⟨TType.sell, envPrice env, adjustedAmount env / envPrice env, adjustedAmount env,
          some ((envPrice env - lt.price) * lt.quantity), 0⟩⟩ := by
  have hib : isBuyOpt (some lt) = true := by simp [isBuyOpt, hbuy]
  have hprot : protectStep (some lt) (envPrice env) env.config
      = (Action.sell, Reason.stopLoss) := by
    simp only [protectStep]
    rw [if_pos hib, if_pos hsl]
  have hDA : ∀ (tS : Bool) (rg : Regime) (sMA lMA rsi adx : ℚ) (macd sig : Option ℚ)
      (bb : BBands),
      decideAction (some lt) (envPrice env) env.config (decide (envVolatility env < 8)) tS rg
        sMA lMA rsi adx macd sig bb =
      (Action.sell, if envVolatility env < 8 then Reason.stopLoss
        else Reason.highVolatility) := by
    intro tS rg sMA lMA rsi adx macd sig bb
    by_cases hv : envVolatility env < 8
    · simp [decideAction, hprot, hv]
    · simp [decideAction, hprot, hv]
  simp only [evaluateEngine]
  rw [if_neg h0, if_neg (not_le.mpr hcb)]
  rw [hDA]
  simp [emitTrade]

/-- Witness for C4 in a calm market (volatility 0): Sell with the
stop-loss reason and `pnl = (97 − 100) × 3`. -/
theorem C4_stop_loss_exit_witness :
    evaluateEngine ratSqrt envCalm (some ⟨TType.buy, 100, 3⟩) =
      some ⟨Action.sell,
        (if envVolatility envCalm < 8 then Reason.stopLoss else Reason.highVolatility),
        false,
        some ⟨TType.sell, envPrice envCalm, adjustedAmount envCalm / envPrice envCalm,
          adjustedAmount envCalm,
          some ((envPrice envCalm - (100 : ℚ)) * 3), 0⟩⟩ :=
  C4_stop_loss_exit ratSqrt envCalm ⟨TType.buy, 100, 3⟩ (by decide) (by decide) rfl
    (by decide) (by decide)

/-- Counterexample for C4 as frozen: in `envVolatile` the position is
Long at entry 100, the stop-loss condition holds, the evaluation does
sell with `pnl = (50 − 100) × 2 = −100` — but the recorded reason is the
high-volatility message, not "stop loss", because volatility is 200. -/
theorem C4_counterexample :
    ((envPrice envVolatile - 100) / 100 * 100 ≤ -envVolatile.config.stop_loss_percent) ∧
    ¬ (envVolatility envVolatile < 8) ∧
    evaluateEngine ratSqrt envVolatile (some ⟨TType.buy, 100, 2⟩) =
      some ⟨Action.sell, Reason.highVolatility, false,
        some ⟨TType.sell, 50, 5 / 50, 5, some (-100), 0⟩⟩ ∧
    Reason.highVolatility ≠ Reason.stopLoss :=
  ⟨by decide, by decide, by decide, by decide⟩

end TradeGnome
